import Mathlib

/-!
Shallow embedding of the `extproc` process-control library (extproc.py),
the current revision of the design also found in pc.py.

External collaborators (subprocess process creation, shlex tokenization,
temporary-file creation, the filesystem) are modelled as capabilities:
the child's behaviour is a parameter (bytes written to stdout/stderr and
an exit code), file objects are identified by OS file numbers, and the
contents of every file live in an explicit `Store` threaded through the
operations.  Filenos 0, 1, 2 stand for the parent's own stdin, stdout
and stderr; newly opened files and pipes take filenos from a fresh
counter that the caller keeps above every live fileno (`3` at start).
-/

set_option autoImplicit false

namespace Extproc

/-- A value stored in the `fd_objs` table of a `Cmd`/`Pipe`
(extproc.py keeps either a plain Python int — including the sentinels
`subprocess.PIPE = -1` and `subprocess.STDOUT = -2` — or an open file
object, which carries an OS fileno and possibly a filesystem name). -/
inductive FdObj where
  | num (n : Int)
  | file (fileno : Nat) (name : Option String)
deriving DecidableEq, Repr

/-- The raw value a caller may put in the `fd` dict of the `Cmd`
constructor: a path string, a Python int, an open file object, or
anything else (which trips the assertion in `_process_fd_pair`). -/
inductive FdSpec where
  | str (path : String)
  | int (n : Int)
  | fileS (fileno : Nat) (name : Option String)
  | other
deriving DecidableEq, Repr

/-- The argument accepted by the `Cmd` constructor: a string (tokenized
with `shlex.split`), a list or tuple of strings, or anything else. -/
inductive CmdArg where
  | str (s : String)
  | listA (l : List String)
  | tupleA (l : List String)
  | other
deriving DecidableEq, Repr

/-- Python exceptions raised by extproc.py, by class. -/
inductive Err where
  | typeError (msg : String)
  | notImplemented (msg : String)
  | valueError (msg : String)
  | assertionError (msg : String)
  | exception (msg : String)
deriving DecidableEq, Repr

/-- The state of one OS-level file: its contents, the shared read/write
offset, and whether it has been closed. -/
structure FileSt where
  content : String
  pos : Nat
  closed : Bool
deriving DecidableEq, Repr

/-- All file contents, indexed by fileno. -/
def Store : Type := Nat → FileSt

/-- A freshly created (empty) file at fileno `f`. -/
def initFile (store : Store) (f : Nat) : Store :=
  fun k => if k = f then ⟨"", 0, false⟩ else store k

/-- Mark the file at fileno `f` closed. -/
def closeFile (store : Store) (f : Nat) : Store :=
  fun k => if k = f then { store k with closed := true } else store k

/-- `_is_fileno(n, f)`: `(f is n) or (hasattr(f, 'fileno') and f.fileno() == n)`. -/
def is_fileno (n : Int) (f : FdObj) : Bool :=
  match f with
  | .num m => m == n
  | .file k _ => (k : Int) == n

/-- What an external child process does: the bytes it writes to its
standard output and standard error, and its exit code.  This is the
abstract process-spawn capability's parameter. -/
structure ChildBeh where
  outBytes : String
  errBytes : String
  exitCode : Int
deriving DecidableEq, Repr

/-- The parent-side live-process handle (`subprocess.Popen` after
`decorate_popen`): the parent's ends of any pipes that were requested
(indexed 0/1/2, `none` where no pipe was made), the child's eventual
exit code, and the cached `returncode` cell (`none` until `wait`). -/
structure Popen where
  fd_objs : Int → Option FdObj
  exitCode : Int
  returncode : Option Int

/-- `subprocess.Popen.wait` (external capability, §6 of the spec):
fill the exit-status cell if empty, return the cached value otherwise. -/
def popenWait (p : Popen) : Int × Popen :=
  match p.returncode with
  | some r => (r, p)
  | none => (p.exitCode, { p with returncode := some p.exitCode })

/-- A `Cmd` object: argument vector, working directory, extra
environment entries `e`, the full environment `env`, the fd table
`fd_objs` (defaults `{0: 0, 1: 1, 2: 2}`), the optional spawned handle
`p`, and an object identity used by the JOBS registry. -/
structure Cmd where
  cmd : List String
  cd : Option String
  e : List (String × String)
  env : String → Option String
  fd_objs : Int → FdObj
  p : Option Popen
  id : Nat

/-- `DEFAULT_FD = {STDIN: 0, STDOUT: 1, STDERR: 2}` as a total table. -/
def defaultFd : Int → FdObj := fun k => .num k

/-- First-match lookup in an association list (Python dict lookup). -/
def lookupA (l : List (String × String)) (k : String) : Option String :=
  (l.find? (fun q => q.1 == k)).map (fun q => q.2)

/-- `base.update(ext)` on environment dicts, as a lookup function. -/
def envUpdate (base : String → Option String) (ext : List (String × String)) :
    String → Option String :=
  fun k =>
    match lookupA ext k with
    | some v => some v
    | none => base k

/-- Point update of an fd table (Python `d[k] = v`). -/
def updFd (f : Int → FdObj) (k : Int) (v : FdObj) : Int → FdObj :=
  fun i => if i = k then v else f i

/-- `Cmd._make_cmd`: a string is tokenized by the external `shlex.split`
capability `tokenize`; a list or tuple is taken as is; anything else is
a `TypeError`. -/
def _make_cmd (tokenize : String → List String) (a : CmdArg) :
    Except Err (List String) :=
  match a with
  | .str s => .ok (tokenize s)
  | .listA l => .ok l
  | .tupleA l => .ok l
  | .other => .error (.typeError "cmd must be either of type string, list or tuple")

/-- `Process._process_fd_pair`: validate one entry of the caller's fd
dict and turn it into the stored binding.  Opening a path string takes
a fresh fileno.  Int targets: `{2: 1}` becomes the `_ORIG_STDOUT`
sentinel (-2); any other target in 0/1/2 is unsupported; targets >= 3
are kept as raw descriptors. -/
def _process_fd_pair (stream_num : Int) (fdd : FdSpec) (fresh : Nat) :
    Except Err (FdObj × Nat) :=
  if stream_num < 0 ∨ 3 ≤ stream_num then
    .error (.notImplemented "redirection not supported")
  else
    match fdd with
    | .str path => .ok (.file fresh (some path), fresh + 1)
    | .int v =>
        if stream_num = 2 ∧ v = 1 then .ok (.num (-2), fresh)
        else if v = 0 ∨ v = 1 ∨ v = 2 then
          .error (.notImplemented "redirection not supported")
        else .ok (.num v, fresh)
    | .fileS f nm => .ok (.file f nm, fresh)
    | .other => .error (.assertionError "fd_descriptors must be a string stream number or file")

/-- The constructor's loop `for stream_num, fd_num in fd.iteritems():
self.fd_objs[stream_num] = self._process_fd_pair(stream_num, fd_num)`. -/
def processFdList (fd : List (Int × FdSpec)) (base : Int → FdObj) (fresh : Nat) :
    Except Err ((Int → FdObj) × Nat) :=
  match fd with
  | [] => .ok (base, fresh)
  | (k, v) :: rest =>
      match _process_fd_pair k v fresh with
      | .error err => .error err
      | .ok (obj, fresh') => processFdList rest (updFd base k obj) fresh'

/-- `Cmd.__init__`: build the argument vector, copy the ambient
environment `environ` and overlay `e`, and resolve the fd overrides
over `DEFAULT_FD`.  The external tokenizer, the ambient environment,
the fresh-fileno supply and the object identity are parameters. -/
def Cmd.init (tokenize : String → List String) (environ : String → Option String)
    (arg : CmdArg) (fd : List (Int × FdSpec)) (e : List (String × String))
    (cd : Option String) (oid : Nat) (fresh : Nat) : Except Err (Cmd × Nat) :=
  match _make_cmd tokenize arg with
  | .error err => .error err
  | .ok argv =>
      match processFdList fd defaultFd fresh with
      | .error err => .error err
      | .ok (fdo, fresh') =>
          .ok ({ cmd := argv, cd := cd, e := e, env := envUpdate environ e
               , fd_objs := fdo, p := none, id := oid }, fresh')

/-- `Cmd.__eq__`: equality over (argument vector, resolved fd table,
environment, working directory). -/
def cmdEq (a b : Cmd) : Prop :=
  a.cmd = b.cmd ∧ a.fd_objs = b.fd_objs ∧ a.env = b.env ∧ a.cd = b.cd

/-- `subprocess` allocates an OS pipe when a binding is `PIPE` (-1);
the parent's end takes a fresh fileno with empty contents. -/
def pipeAlloc (b : Option FdObj) (fresh : Nat) (store : Store) :
    Option Nat × Nat × Store :=
  if b = some (.num (-1)) then (some fresh, fresh + 1, initFile store fresh)
  else (none, fresh, store)

/-- Where bytes written by the child to the stream bound by `b` land:
`none` (Python `None`) inherits the parent's own stream `slot`; a
non-negative int is a raw descriptor; `PIPE` goes to the allocated
pipe; a file object goes to that file. -/
def sinkOf (slot : Nat) (b : Option FdObj) (pipeEnd : Option Nat) : Option Nat :=
  match b with
  | none => some slot
  | some (.num n) => if n = -1 then pipeEnd else if 0 ≤ n then some n.toNat else none
  | some (.file f _) => some f

/-- Append `s` at the shared offset of the file designated by `sink`. -/
def writeStore (store : Store) (sink : Option Nat) (s : String) : Store :=
  match sink with
  | none => store
  | some f => fun k =>
      if k = f then
        { content := (store f).content ++ s
        , pos := (store f).pos + s.length, closed := (store f).closed }
      else store k

/-- The process-spawn capability (`subprocess.Popen` plus the child
running to completion): allocate pipes for `PIPE` bindings, let the
child write its output/error bytes to the bound sinks (`STDOUT = -2`
on stderr follows the stdout binding), and return the decorated handle
(`decorate_popen` stores the parent's pipe ends at keys 0/1/2). -/
def popenRun (sin sout serr : Option FdObj) (beh : ChildBeh) (fresh : Nat)
    (store : Store) : Popen × Nat × Store :=
  let a0 := pipeAlloc sin fresh store
  let a1 := pipeAlloc sout a0.2.1 a0.2.2
  let a2 := pipeAlloc serr a1.2.1 a1.2.2
  let oSink := sinkOf 1 sout a1.1
  let eSink := if serr = some (.num (-2)) then oSink else sinkOf 2 serr a2.1
  let st1 := writeStore a2.2.2 oSink beh.outBytes
  let st2 := writeStore st1 eSink beh.errBytes
  ({ fd_objs := fun k =>
       if k = 0 then a0.1.map (fun f => FdObj.file f none)
       else if k = 1 then a1.1.map (fun f => FdObj.file f none)
       else if k = 2 then a2.1.map (fun f => FdObj.file f none)
       else none
   , exitCode := beh.exitCode, returncode := none }, a2.2.1, st2)

/-- `Cmd.run`: `subprocess.call(**self.popen_args)` — spawn with the
resolved bindings and wait; the instance itself is not modified and no
spawn-count check is made. -/
def Cmd.run (c : Cmd) (beh : ChildBeh) (fresh : Nat) (store : Store) :
    Int × Nat × Store :=
  let r := popenRun (some (c.fd_objs 0)) (some (c.fd_objs 1)) (some (c.fd_objs 2))
             beh fresh store
  (r.1.exitCode, r.2)

/-- Remove every entry `job is self` from the JOBS list (identity-based;
removing an absent entry is a no-op). -/
def removeJob (jobs : List Nat) (oid : Nat) : List Nat :=
  jobs.filter (fun j => j ≠ oid)

/-- `Cmd.spawn`: refuse if `self.p` is already set, else `_popen` and
append to JOBS (when `append_to_jobs`). -/
def Cmd.spawn (c : Cmd) (beh : ChildBeh) (appendJobs : Bool) (fresh : Nat)
    (store : Store) (jobs : List Nat) :
    Except Err (Cmd × Nat × Store × List Nat) :=
  if c.p.isSome then .error (.exception "can only spawn once per cmd object")
  else
    let r := popenRun (some (c.fd_objs 0)) (some (c.fd_objs 1)) (some (c.fd_objs 2))
               beh fresh store
    .ok ({ c with p := some r.1 }, r.2.1, r.2.2,
         if appendJobs then jobs ++ [c.id] else jobs)

/-- `Cmd.wait`: error when nothing was spawned, else `self.p.wait()`
and removal from JOBS.  (The optional completion callback, a pure
side effect, is not modelled.) -/
def Cmd.wait (c : Cmd) (jobs : List Nat) : Except Err (Int × Cmd × List Nat) :=
  match c.p with
  | none => .error (.exception "No process to kill")
  | some p =>
      let w := popenWait p
      .ok (w.1, { c with p := some w.2 }, removeJob jobs c.id)

/-- The message of the `ValueError` in `_check_redirect_target`. -/
def cannotCaptureMsg : String := "cannot capture the stream: it was redirected"

/-- `Process._check_redirect_target`: capture is allowed only when the
current binding still inherits the parent's stream `fd_target`; then a
fresh `TemporaryFile` becomes the new binding, else `ValueError`. -/
def _check_redirect_target (fd_target : Int) (fd_dict : Int → FdObj) (fresh : Nat)
    (store : Store) : Except Err (FdObj × Nat × Store) :=
  if is_fileno fd_target (fd_dict fd_target) then
    .ok (.file fresh none, fresh + 1, initFile store fresh)
  else
    .error (.valueError cannotCaptureMsg)

/-- `Process._verify_capture_args`: only streams 1 and 2 may be
captured; then defer to `_check_redirect_target`. -/
def _verify_capture_args (fd_a : Int) (fd_dict : Int → FdObj) (fresh : Nat)
    (store : Store) : Except Err (FdObj × Nat × Store) :=
  if fd_a ≠ 1 ∧ fd_a ≠ 2 then
    .error (.notImplemented "can only capture a subset of fd [1, 2] for now")
  else _check_redirect_target fd_a fd_dict fresh store

/-- The `for stream_num in fd` loop of `capture`: verify and rebind
each requested stream in turn; on failure the updates already made to
the fd table are kept (the Python object was mutated in place). -/
def captureLoop (fdArgs : List Int) (fdo : Int → FdObj) (fresh : Nat)
    (store : Store) : Except Err Unit × (Int → FdObj) × Nat × Store :=
  match fdArgs with
  | [] => (.ok (), fdo, fresh, store)
  | a :: rest =>
      match _verify_capture_args a fdo fresh store with
      | .error e => (.error e, fdo, fresh, store)
      | .ok (obj, fresh', store') => captureLoop rest (updFd fdo a obj) fresh' store'

/-- `Process._cleanup_capture_dict`: close the opposite stream's object
when it is a private file (not a reference to the parent's stream). -/
def _cleanup_capture_dict (fd : Int) (fd_dict : Int → Option FdObj) (store : Store) :
    Store :=
  let target : Int := if fd = 1 then 2 else 1
  match fd_dict target with
  | some (.file f _) => if (f : Int) == target then store else closeFile store f
  | _ => store

/-- `f.seek(0)` on the object bound at a captured stream. -/
def seekZero (store : Store) (b : FdObj) : Store :=
  match b with
  | .file f _ => fun k => if k = f then { store k with pos := 0 } else store k
  | .num _ => store

/-- The record returned by `capture`: `Capture(stdout, stderr,
exit_status)` where the first two are the bindings at streams 1 and 2
and the status is the handle's `returncode`. -/
structure CaptureRec where
  stdout : FdObj
  stderr : FdObj
  exit_status : Option Int
deriving DecidableEq, Repr

/-- `Process.capture` as inherited by `Cmd`: default the stream list to
`[1]`, verify/rebind each requested stream to a temporary file, spawn,
close the popen stdin end if any, wait, clean up the opposite popen
stream unless both were requested, rewind each captured buffer, and
return the record.  Errors keep the partial fd-table mutation. -/
def Cmd.capture (c : Cmd) (beh : ChildBeh) (fdArgs : List Int) (fresh : Nat)
    (store : Store) : Except Err CaptureRec × Cmd × Nat × Store :=
  let fd := if fdArgs = [] then [1] else fdArgs
  match captureLoop fd c.fd_objs fresh store with
  | (.error e, fdo, fresh1, store1) =>
      (.error e, { c with fd_objs := fdo }, fresh1, store1)
  | (.ok _, fdo, fresh1, store1) =>
      let pr := popenRun (some (fdo 0)) (some (fdo 1)) (some (fdo 2)) beh fresh1 store1
      let p := pr.1
      let store2 :=
        match p.fd_objs 0 with
        | some (.file f _) => closeFile pr.2.2 f
        | _ => pr.2.2
      let p2 := { p with returncode := some p.exitCode }
      let store3 :=
        if fd.contains 1 && fd.contains 2 then store2
        else _cleanup_capture_dict (fd.headD 1) p2.fd_objs store2
      let store4 := fd.foldl (fun st s => seekZero st (fdo s)) store3
      (.ok ⟨fdo 1, fdo 2, p2.returncode⟩,
       { c with fd_objs := fdo, p := some p2 }, pr.2.1, store4)

/-- A default `Cmd`, standing for the `IndexError` object Python would
never produce (used only under list accesses that require nonempty
stage lists, as `Pipe.__init__` does with `cmds[0]`/`cmds[-1]`). -/
def defCmd : Cmd :=
  { cmd := [], cd := none, e := [], env := fun _ => none
  , fd_objs := defaultFd, p := none, id := 0 }

/-- `Pipe` object: stages, extra environment, merged environment,
boundary fd table and working directory. -/
structure Pipe where
  cmds : List Cmd
  e : List (String × String)
  env : String → Option String
  fd_objs : Int → FdObj
  cd : Option String

/-- The per-stage env merge of `Pipe.__init__`:
`c.e.update(self.e); c.env.update(self.e)`. -/
def pipeMergeStage (e : List (String × String)) (c : Cmd) : Cmd :=
  { c with e := e ++ c.e, env := envUpdate c.env e }

/-- The loop body `if _is_fileno(1, c.fd_objs[STDOUT]):
c.fd_objs[STDOUT] = PIPE` of `Pipe.__init__`. -/
def pipeStageWire (c : Cmd) : Cmd :=
  if is_fileno 1 (c.fd_objs 1) then
    { c with fd_objs := updFd c.fd_objs 1 (.num (-1)) }
  else c

/-- The loop `for c in cmds[:-1]: ...` of `Pipe.__init__`: rewrite
every stage but the last. -/
def pipeRewrite : List Cmd → List Cmd
  | [] => []
  | [c] => [c]
  | c :: c2 :: rest => pipeStageWire c :: pipeRewrite (c2 :: rest)

/-- `Pipe.__init__`: merge the extra environment `e` into every stage
(both its `e` dict and its full environment), rewrite each non-final
stage's inherited stdout to `PIPE`, and take the boundary bindings
from the first stage's stdin and the last stage's stdout/stderr. -/
def Pipe.init (environ : String → Option String) (cmds : List Cmd)
    (e : List (String × String)) : Pipe :=
  let merged := cmds.map (pipeMergeStage e)
  let wired := pipeRewrite merged
  { cmds := wired
  , e := e
  , env := envUpdate environ e
  , fd_objs := fun k =>
      if k = 0 then (wired.headD defCmd).fd_objs 0
      else if k = 1 then (wired.getLastD defCmd).fd_objs 1
      else if k = 2 then (wired.getLastD defCmd).fd_objs 2
      else .num k
  , cd := (wired.headD defCmd).cd }

/-- `Cmd._popen(stdin=prev)`: spawn one pipeline stage with its stdin
binding overridden, storing the handle on the stage. -/
def Cmd.popenWith (c : Cmd) (sin : Option FdObj) (beh : ChildBeh) (fresh : Nat)
    (store : Store) : Cmd × Popen × Nat × Store :=
  let r := popenRun sin (some (c.fd_objs 1)) (some (c.fd_objs 2)) beh fresh store
  ({ c with p := some r.1 }, r.1, r.2.1, r.2.2)

/-- `c.wait()` on a stage whose handle exists: fill the cached status. -/
def fillWait (c : Cmd) : Cmd :=
  match c.p with
  | some p => { c with p := some (popenWait p).2 }
  | none => c

/-- `Pipe.returncode`: the first stage status that is not 0, else 0. -/
def pipeRc : List Cmd → Option Int
  | [] => some 0
  | c :: rest =>
      let r := c.p.bind (fun q => q.returncode)
      if r = some 0 then pipeRc rest else r

/-- The `for c in self.cmds[:-1]` spawning loop of `Pipe.capture`:
non-inherited stdin overrides the incoming pipe end, an inherited
stderr is redirected to the shared capture buffer when stream 2 is
being captured, and the stage's live stdout becomes the next `prev`. -/
def pipeCapLoop (fd2 : Bool) (tempErr : FdObj) (behs : Nat → ChildBeh) (i : Nat)
    (cmds : List Cmd) (prev : Option FdObj) (fresh : Nat) (store : Store) :
    List Cmd × Option FdObj × Nat × Store :=
  match cmds with
  | [] => ([], prev, fresh, store)
  | c :: rest =>
      let prev1 := if is_fileno 0 (c.fd_objs 0) then prev else some (c.fd_objs 0)
      let c1 := if fd2 && is_fileno 2 (c.fd_objs 2) then
                  { c with fd_objs := updFd c.fd_objs 2 tempErr }
                else c
      let r := c1.popenWith prev1 (behs i) fresh store
      let rec2 := pipeCapLoop fd2 tempErr behs (i + 1) rest (r.2.1.fd_objs 1)
                    r.2.2.1 r.2.2.2
      (r.1 :: rec2.1, rec2.2.1, rec2.2.2.1, rec2.2.2.2)

/-- `Pipe.capture`: verify/rebind the requested boundary streams (same
loop as `Cmd.capture`), allocate the shared stderr buffer when stream
2 is requested, spawn all stages left to right with the pipe plumbing,
wait on every stage, close the parents' pipe ends, clean up, rewind
the captured buffers and return the record with the aggregate status. -/
def Pipe.capture (pl : Pipe) (behs : Nat → ChildBeh) (fdArgs : List Int)
    (fresh : Nat) (store : Store) (jobs : List Nat) :
    Except Err CaptureRec × Pipe × Nat × Store × List Nat :=
  let fd := if fdArgs = [] then [1] else fdArgs
  match captureLoop fd pl.fd_objs fresh store with
  | (.error e, fdo, fresh1, store1) =>
      (.error e, { pl with fd_objs := fdo }, fresh1, store1, jobs)
  | (.ok _, fdo0, fresh1, store1) =>
      let s2 := if fd.contains 2 then
                  (updFd fdo0 2 (.file fresh1 none), fresh1 + 1, initFile store1 fresh1)
                else (fdo0, fresh1, store1)
      let fdo := s2.1
      let fresh2 := s2.2.1
      let store2 := s2.2.2
      match pl.cmds.getLast? with
      | none =>
          (.error (.exception "IndexError: list index out of range"),
           { pl with fd_objs := fdo }, fresh2, store2, jobs)
      | some clast =>
          let inter := pl.cmds.dropLast
          let prev0 : Option FdObj := some ((pl.cmds.headD defCmd).fd_objs 0)
          let lp := pipeCapLoop (fd.contains 2) (fdo 2) behs 0 inter prev0 fresh2 store2
          let inter' := lp.1
          let prev2 := if is_fileno 0 (clast.fd_objs 0) then lp.2.1
                       else some (clast.fd_objs 0)
          let s4 := if fd.contains 1 then
                      ({ clast with fd_objs := updFd clast.fd_objs 1 (.file lp.2.2.1 none) },
                       updFd fdo 1 (.file lp.2.2.1 none), lp.2.2.1 + 1,
                       initFile lp.2.2.2 lp.2.2.1)
                    else (clast, fdo, lp.2.2.1, lp.2.2.2)
          let clastA := s4.1
          let fdo2 := s4.2.1
          let clastB := if fd.contains 2 && is_fileno 2 (clastA.fd_objs 2) then
                          { clastA with fd_objs := updFd clastA.fd_objs 2 (fdo2 2) }
                        else clastA
          let rl := clastB.popenWith prev2 (behs inter.length) s4.2.2.1 s4.2.2.2
          let allCmds := inter'.map fillWait ++ [fillWait rl.1]
          let jobs' := allCmds.foldl (fun j c => removeJob j c.id) jobs
          let store5 := inter'.foldl
              (fun st c =>
                if c.fd_objs 1 = .num (-1) then
                  match c.p with
                  | some p =>
                      match p.fd_objs 1 with
                      | some (.file f _) => closeFile st f
                      | _ => st
                  | none => st
                else st) rl.2.2.2
          let store6 := if fd.contains 1 && fd.contains 2 then store5
                        else _cleanup_capture_dict (fd.headD 1) (fun k => some (fdo2 k)) store5
          let store7 := fd.foldl (fun st d => seekZero st (fdo2 d)) store6
          (.ok ⟨fdo2 1, fdo2 2, pipeRc allCmds⟩,
           { pl with cmds := allCmds, fd_objs := fdo2 }, rl.2.2.1, store7, jobs')

/-- A binding only refers to filenos (and raw-descriptor numbers)
strictly below `n`: the freshness discipline relating a command's
bindings to the fresh-fileno supply. -/
def objBelow (b : FdObj) (n : Nat) : Bool :=
  match b with
  | .file f _ => f < n
  | .num m => m < (n : Int)

/-! Concrete fixtures used by witnesses and counterexamples. -/

/-- A concrete tokenizer capability returning no words. -/
def tokNil : String → List String := fun _ => []

/-- A concrete tokenizer capability: every string tokenizes to
`["grep", "my stuff"]` (the doctest's example). -/
def tokGrep : String → List String := fun _ => ["grep", "my stuff"]

/-- A concrete empty ambient environment. -/
def envNil : String → Option String := fun _ => none

/-- A store of empty, open files. -/
def store0 : Store := fun _ => ⟨"", 0, false⟩

/-- A child that prints `foo` and exits 0. -/
def beh0 : ChildBeh := ⟨"foo", "", 0⟩

/-- Per-stage behaviours, all `beh0`. -/
def behs0 : Nat → ChildBeh := fun _ => beh0

/-- A live handle with no pipe ends and exit code 0, not yet waited. -/
def popen0 : Popen := { fd_objs := fun _ => none, exitCode := 0, returncode := none }

/-- `Cmd("/bin/sh -c 'echo foo'")` with all-default bindings. -/
def sampleCmd : Cmd :=
  { cmd := ["/bin/sh", "-c", "echo foo"], cd := none, e := [], env := envNil
  , fd_objs := defaultFd, p := none, id := 7 }

/-- `sampleCmd` after a spawn stored its handle. -/
def spawnedCmd : Cmd := { sampleCmd with p := some popen0 }

/-- `sampleCmd` with stdout redirected to an opened file. -/
def redirCmd : Cmd :=
  { sampleCmd with fd_objs := updFd defaultFd 1 (.file 5 (some "/tmp/out")) }

/-- A one-stage pipeline whose boundary stdout is the redirected file. -/
def redirPipe : Pipe := Pipe.init envNil [redirCmd] []

/-!  Theorems  -/

/-- C4: for every argument vector `v` and shell string `s` that the
tokenizer capability splits into `v`, `Cmd(s)` and `Cmd(v)` (same fd
overrides, extra environment and working directory) are equal under
`Cmd.__eq__`, i.e. under (argument vector, resolved bindings,
environment, working directory). -/
theorem cmd_string_equals_cmd_list (tokenize : String → List String)
    (environ : String → Option String) (v : List String) (s : String)
    (fd : List (Int × FdSpec)) (e : List (String × String)) (cd : Option String)
    (oid1 oid2 fresh : Nat) (h : tokenize s = v) :
    ∀ c1 n1 c2 n2,
      Cmd.init tokenize environ (.str s) fd e cd oid1 fresh = .ok (c1, n1) →
      Cmd.init tokenize environ (.listA v) fd e cd oid2 fresh = .ok (c2, n2) →
      cmdEq c1 c2 := by
  intro c1 n1 c2 n2 h1 h2
  unfold Cmd.init _make_cmd at h1 h2
  dsimp only at h1 h2
  rw [h] at h1
  rcases hp : processFdList fd defaultFd fresh with err | pr
  · rw [hp] at h1
    exact absurd h1 (by simp)
  · rw [hp] at h1 h2
    simp only [Except.ok.injEq, Prod.mk.injEq] at h1 h2
    obtain ⟨h1c, -⟩ := h1
    obtain ⟨h2c, -⟩ := h2
    rw [← h1c, ← h2c]
    exact ⟨rfl, rfl, rfl, rfl⟩

/-- Witness for C4 at a concrete tokenizer, string and vector. -/
theorem cmd_string_equals_cmd_list_witness :
    cmdEq
      { cmd := ["grep", "my stuff"], cd := none, e := [], env := envUpdate envNil []
      , fd_objs := defaultFd, p := none, id := 0 }
      { cmd := ["grep", "my stuff"], cd := none, e := [], env := envUpdate envNil []
      , fd_objs := defaultFd, p := none, id := 1 } :=
  cmd_string_equals_cmd_list tokGrep envNil ["grep", "my stuff"] "grep \"my stuff\""
    [] [] none 0 1 3 rfl _ 3 _ 3 rfl rfl

/-- C7 counterexample: constructing a `Cmd` with the stream override
`{1: 1}` (a raw-descriptor target equal to the stream's own number)
does not succeed as a no-op — it raises `NotImplementedError`. -/
theorem raw_descriptor_same_stream_counterexample :
    Cmd.init tokNil envNil (.listA ["yes"]) [(1, .int 1)] [] none 0 3
      = .error (.notImplemented "redirection not supported") := rfl

/-- C7 amended: for every stream slot k in 0..2, constructing a Command
with the override `{k: k}` fails with the unsupported-redirection error
(`NotImplementedError`), exactly like any other int target in 0..2
other than the `{2: 1}` cross-link; it is not an Inherit no-op. -/
theorem raw_descriptor_same_stream_fails (tokenize : String → List String)
    (environ : String → Option String) (l : List String)
    (e : List (String × String)) (cd : Option String) (oid fresh : Nat)
    (k : Int) (hk0 : 0 ≤ k) (hk3 : k < 3) :
    Cmd.init tokenize environ (.listA l) [(k, .int k)] e cd oid fresh
      = .error (.notImplemented "redirection not supported") := by
  have hk : k = 0 ∨ k = 1 ∨ k = 2 := by omega
  rcases hk with rfl | rfl | rfl <;>
    simp [Cmd.init, _make_cmd, processFdList, _process_fd_pair]

/-- Witness for C7's amended theorem at k = 1. -/
theorem raw_descriptor_same_stream_fails_witness :
    Cmd.init tokNil envNil (.listA ["yes"]) [(1, .int 1)] [] none 0 3
      = .error (.notImplemented "redirection not supported") :=
  raw_descriptor_same_stream_fails tokNil envNil ["yes"] [] none 0 3 1
    (by decide) (by decide)

/-- C8 counterexample: constructing a `Cmd` from an empty argument list
succeeds (yielding an empty argument vector) instead of failing with
`InvalidArgument`. -/
theorem construct_empty_accepted_counterexample :
    Cmd.init tokNil envNil (.listA []) [] [] none 0 3
      = .ok ({ cmd := [], cd := none, e := [], env := envUpdate envNil []
             , fd_objs := defaultFd, p := none, id := 0 }, 3) := rfl

/-- C8 amended: construction fails with `InvalidArgument` (`TypeError`)
exactly when the argument is neither a string nor a list/tuple of
strings; empty inputs are not rejected — an empty list (and an empty
string, under a tokenizer that splits it to no words) constructs a
Command with an empty argument vector. -/
theorem construct_type_check (tokenize : String → List String)
    (environ : String → Option String) (fd : List (Int × FdSpec))
    (e : List (String × String)) (cd : Option String) (oid fresh : Nat) :
    Cmd.init tokenize environ .other fd e cd oid fresh
      = .error (.typeError "cmd must be either of type string, list or tuple") ∧
    (∀ l : List String,
      Cmd.init tokenize environ (.listA l) [] e cd oid fresh
        = .ok ({ cmd := l, cd := cd, e := e, env := envUpdate environ e
               , fd_objs := defaultFd, p := none, id := oid }, fresh)) ∧
    Cmd.init tokenize environ (.str "") [] e cd oid fresh
      = .ok ({ cmd := tokenize "", cd := cd, e := e, env := envUpdate environ e
             , fd_objs := defaultFd, p := none, id := oid }, fresh) := by
  refine ⟨?_, fun l => rfl, rfl⟩
  simp [Cmd.init, _make_cmd]

/-- The verification loop on a single already-redirected stream fails
with the cannot-capture `ValueError` and leaves the table untouched. -/
theorem captureLoop_redirected (s : Int) (fdo : Int → FdObj) (fresh : Nat)
    (store : Store) (hs : s = 1 ∨ s = 2) (hred : is_fileno s (fdo s) = false) :
    captureLoop [s] fdo fresh store
      = (.error (.valueError cannotCaptureMsg), fdo, fresh, store) := by
  rcases hs with rfl | rfl <;>
    simp [captureLoop, _verify_capture_args, _check_redirect_target, hred]

/-- C1: on both a Command and a Pipeline's boundary bindings, capturing
a stream s in 1..2 whose current binding is not Inherit fails with the
cannot-capture `ValueError`, and the fd table is left exactly as it
was (the existing binding is not overridden). -/
theorem capture_on_redirected_stream_fails (c : Cmd) (pl : Pipe) (beh : ChildBeh)
    (behs : Nat → ChildBeh) (s : Int) (fresh fresh2 : Nat) (store store2 : Store)
    (jobs : List Nat)
    (hs : s = 1 ∨ s = 2)
    (hc : is_fileno s (c.fd_objs s) = false)
    (hp : is_fileno s (pl.fd_objs s) = false) :
    ((Cmd.capture c beh [s] fresh store).1 = .error (.valueError cannotCaptureMsg)
      ∧ (Cmd.capture c beh [s] fresh store).2.1.fd_objs = c.fd_objs)
    ∧ ((Pipe.capture pl behs [s] fresh2 store2 jobs).1
          = .error (.valueError cannotCaptureMsg)
      ∧ (Pipe.capture pl behs [s] fresh2 store2 jobs).2.1.fd_objs = pl.fd_objs) := by
  have h1 := captureLoop_redirected s c.fd_objs fresh store hs hc
  have h2 := captureLoop_redirected s pl.fd_objs fresh2 store2 hs hp
  constructor
  · unfold Cmd.capture
    simp only [List.cons_ne_nil, if_false, ite_false, h1]
    exact ⟨trivial, trivial⟩
  · unfold Pipe.capture
    simp only [List.cons_ne_nil, if_false, ite_false, h2]
    exact ⟨trivial, trivial⟩

/-- Witness for C1 at a Command (and one-stage Pipeline) whose stdout
was redirected to an opened file. -/
theorem capture_on_redirected_stream_fails_witness :
    ((Cmd.capture redirCmd beh0 [1] 10 store0).1
        = .error (.valueError cannotCaptureMsg)
      ∧ (Cmd.capture redirCmd beh0 [1] 10 store0).2.1.fd_objs = redirCmd.fd_objs)
    ∧ ((Pipe.capture redirPipe behs0 [1] 10 store0 []).1
          = .error (.valueError cannotCaptureMsg)
      ∧ (Pipe.capture redirPipe behs0 [1] 10 store0 []).2.1.fd_objs
          = redirPipe.fd_objs) :=
  capture_on_redirected_stream_fails redirCmd redirPipe beh0 behs0 1 10 10
    store0 store0 [] (Or.inl rfl) (by decide) (by decide)

/-- C10: on a Command with all-default (Inherit) bindings, capture(1, 1)
fails with the cannot-capture `ValueError` — after the first occurrence
rebinds stream 1 to a temporary buffer the second occurrence no longer
sees Inherit — even though capture(1) alone succeeds. -/
theorem capture_duplicate_stream_fails (c : Cmd) (beh : ChildBeh) (fresh : Nat)
    (store : Store) (hdef : c.fd_objs = defaultFd) (hfresh : 3 ≤ fresh) :
    (Cmd.capture c beh [1, 1] fresh store).1 = .error (.valueError cannotCaptureMsg)
    ∧ (Cmd.capture c beh [1] fresh store).1
        = .ok ⟨.file fresh none, .num 2, some beh.exitCode⟩ := by
  have hne : ((fresh : Int) == 1) = false := by
    simp only [beq_eq_false_iff_ne, ne_eq]
    omega
  constructor
  · have hl : captureLoop [1, 1] c.fd_objs fresh store
        = (.error (.valueError cannotCaptureMsg),
           updFd c.fd_objs 1 (.file fresh none), fresh + 1, initFile store fresh) := by
      simp [captureLoop, _verify_capture_args, _check_redirect_target, hdef,
        defaultFd, is_fileno, updFd, hne]
    unfold Cmd.capture
    simp only [List.cons_ne_nil, if_false, ite_false, hl]
  · have hl : captureLoop [1] c.fd_objs fresh store
        = (.ok (), updFd c.fd_objs 1 (.file fresh none), fresh + 1,
           initFile store fresh) := by
      simp [captureLoop, _verify_capture_args, _check_redirect_target, hdef,
        defaultFd, is_fileno]
    unfold Cmd.capture
    simp only [List.cons_ne_nil, if_false, ite_false, hl]
    simp [popenRun, pipeAlloc, sinkOf, writeStore, updFd, hdef, defaultFd,
      _cleanup_capture_dict, seekZero]

/-- Witness for C10 at the all-default sample command. -/
theorem capture_duplicate_stream_fails_witness :
    (Cmd.capture sampleCmd beh0 [1, 1] 3 store0).1
        = .error (.valueError cannotCaptureMsg)
    ∧ (Cmd.capture sampleCmd beh0 [1] 3 store0).1
        = .ok ⟨.file 3 none, .num 2, some beh0.exitCode⟩ :=
  capture_duplicate_stream_fails sampleCmd beh0 3 store0 rfl (by decide)

/-- C5 counterexample: after a successful capture on the sample
command (which does set the process handle), a later `run` does not
fail with `AlreadySpawned` — it runs the child again and returns its
exit status normally, because `run` is a bare `subprocess.call` with
no spawned-before check. -/
theorem run_after_capture_succeeds_counterexample :
    (Cmd.capture sampleCmd beh0 [1] 3 store0).1
        = .ok ⟨.file 3 none, .num 2, some 0⟩
    ∧ (Cmd.capture sampleCmd beh0 [1] 3 store0).2.1.p.isSome = true
    ∧ (Cmd.run (Cmd.capture sampleCmd beh0 [1] 3 store0).2.1 beh0 4 store0).1 = 0 :=
  ⟨rfl, rfl, rfl⟩

/-- C5 amended: only `spawn` guards against re-invocation.  A second
`spawn` on an instance whose process handle is set — by an earlier
`spawn` or an earlier successful `capture` — fails with the
`AlreadySpawned` error; `run` neither checks the handle nor sets it. -/
theorem spawn_once_guard (c : Cmd) (beh beh2 : ChildBeh) (aj aj2 : Bool)
    (fresh fresh2 : Nat) (store store2 : Store) (jobs jobs2 : List Nat)
    (fdArgs : List Int) (rec : CaptureRec) :
    (c.p.isSome = true →
      Cmd.spawn c beh aj fresh store jobs
        = .error (.exception "can only spawn once per cmd object")) ∧
    (∀ c' n' s' j', Cmd.spawn c beh aj fresh store jobs = .ok (c', n', s', j') →
      Cmd.spawn c' beh2 aj2 fresh2 store2 jobs2
        = .error (.exception "can only spawn once per cmd object")) ∧
    ((Cmd.capture c beh fdArgs fresh store).1 = .ok rec →
      Cmd.spawn (Cmd.capture c beh fdArgs fresh store).2.1 beh2 aj2 fresh2 store2 jobs2
        = .error (.exception "can only spawn once per cmd object")) := by
  refine ⟨fun hp => ?_, fun c' n' s' j' hok => ?_, fun hcap => ?_⟩
  · simp [Cmd.spawn, hp]
  · unfold Cmd.spawn at hok ⊢
    by_cases hp : c.p.isSome = true
    · simp [hp] at hok
    · simp [hp] at hok
      obtain ⟨rfl, -⟩ := hok
      simp
  · unfold Cmd.capture at hcap ⊢
    rcases hq : captureLoop (if fdArgs = [] then [1] else fdArgs) c.fd_objs fresh store
      with ⟨er, fdo, f1, s1⟩
    rcases er with e | u <;> simp only [hq] at hcap ⊢
    · exact absurd hcap (by simp)
    · simp [Cmd.spawn]

/-- Witness for C5's amended theorem: a spawned command refuses a second
spawn, and so does the command returned by a successful capture. -/
theorem spawn_once_guard_witness :
    Cmd.spawn spawnedCmd beh0 true 4 store0 []
      = .error (.exception "can only spawn once per cmd object")
    ∧ Cmd.spawn (Cmd.capture sampleCmd beh0 [1] 3 store0).2.1 beh0 true 9 store0 []
      = .error (.exception "can only spawn once per cmd object") :=
  ⟨(spawn_once_guard spawnedCmd beh0 beh0 true true 4 9 store0 store0 [] []
      [1] ⟨.file 3 none, .num 2, some 0⟩).1 rfl,
   (spawn_once_guard sampleCmd beh0 beh0 true true 3 9 store0 store0 [] []
      [1] ⟨.file 3 none, .num 2, some 0⟩).2.2 rfl⟩

/-- The job-registry removal is idempotent: removing an entry that was
already removed is a no-op. -/
theorem removeJob_idem (jobs : List Nat) (oid : Nat) :
    removeJob (removeJob jobs oid) oid = removeJob jobs oid := by
  induction jobs with
  | nil => rfl
  | cons a t ih =>
      by_cases h : a = oid
      · simp [removeJob, h]
      · simp only [removeJob, List.filter] at ih ⊢
        simp [h, ih]

/-- C9: on a spawned Command, `wait` is idempotent — a second `wait`
returns the same exit status as the first, does not error, and the
repeated removal from the job registry is a harmless no-op. -/
theorem wait_twice_same_status (c : Cmd) (jobs : List Nat)
    (h : c.p.isSome = true) :
    ∃ r c1 j1, Cmd.wait c jobs = .ok (r, c1, j1)
      ∧ Cmd.wait c1 j1 = .ok (r, c1, j1) := by
  obtain ⟨p, hp⟩ := Option.isSome_iff_exists.mp h
  rcases hr : p.returncode with _ | r
  · refine ⟨p.exitCode, { c with p := some { p with returncode := some p.exitCode } },
      removeJob jobs c.id, ?_, ?_⟩
    · simp [Cmd.wait, hp, popenWait, hr]
    · simp [Cmd.wait, popenWait, removeJob_idem]
  · refine ⟨r, c, removeJob jobs c.id, ?_, ?_⟩
    · have hc : { c with p := some p } = c := by rw [← hp]
      simp [Cmd.wait, hp, popenWait, hr, hc]
    · have hc : { c with p := some p } = c := by rw [← hp]
      simp [Cmd.wait, hp, popenWait, hr, hc, removeJob_idem]

/-- Witness for C9 at a concrete spawned command. -/
theorem wait_twice_same_status_witness :
    ∃ r c1 j1, Cmd.wait spawnedCmd [7] = .ok (r, c1, j1)
      ∧ Cmd.wait c1 j1 = .ok (r, c1, j1) :=
  wait_twice_same_status spawnedCmd [7] rfl

/-- The stdout-wiring step only touches stream 1. -/
theorem pipeStageWire_fd_ne (c : Cmd) (k : Int) (hk : k ≠ 1) :
    (pipeStageWire c).fd_objs k = c.fd_objs k := by
  unfold pipeStageWire
  split <;> simp [updFd, hk]

/-- The stdout-wiring step leaves the stage environment alone. -/
theorem pipeStageWire_env (c : Cmd) : (pipeStageWire c).env = c.env := by
  unfold pipeStageWire
  split <;> rfl

/-- What the stdout-wiring step does at stream 1. -/
theorem pipeStageWire_fd1 (c : Cmd) :
    (pipeStageWire c).fd_objs 1
      = if is_fileno 1 (c.fd_objs 1) then .num (-1) else c.fd_objs 1 := by
  unfold pipeStageWire
  split <;> simp [updFd]

/-- The env-merge step does not touch the fd table. -/
theorem pipeMergeStage_fd (e : List (String × String)) (c : Cmd) :
    (pipeMergeStage e c).fd_objs = c.fd_objs := rfl

/-- `pipeRewrite` preserves the number of stages. -/
theorem pipeRewrite_length (l : List Cmd) : (pipeRewrite l).length = l.length := by
  induction l with
  | nil => rfl
  | cons c t ih =>
      cases t with
      | nil => rfl
      | cons c2 t2 => simpa [pipeRewrite] using ih

/-- Indexing into `pipeRewrite`: non-final stages are wired, the final
stage (and out-of-range indices) are untouched. -/
theorem pipeRewrite_getElem? (l : List Cmd) (i : Nat) :
    (pipeRewrite l)[i]?
      = if i + 1 < l.length then (l[i]?).map pipeStageWire else l[i]? := by
  induction l generalizing i with
  | nil => simp [pipeRewrite]
  | cons c t ih =>
      cases t with
      | nil =>
          have : ¬ i + 1 < ([c] : List Cmd).length := by simp
          simp [pipeRewrite, this]
      | cons c2 t2 =>
          cases i with
          | zero => simp [pipeRewrite]
          | succ j =>
              have hcond : (j + 1 + 1 < (c :: c2 :: t2).length)
                  ↔ (j + 1 < (c2 :: t2).length) := by
                simp
              simp only [pipeRewrite, List.getElem?_cons_succ, ih j]
              by_cases hc : j + 1 < (c2 :: t2).length
              · rw [if_pos hc, if_pos (hcond.mpr hc)]
              · rw [if_neg hc, if_neg (fun hx => hc (hcond.mp hx))]

/-- `pipeRewrite` does not change the final stage. -/
theorem pipeRewrite_getLastD (l : List Cmd) (d : Cmd) :
    (pipeRewrite l).getLastD d = l.getLastD d := by
  induction l generalizing d with
  | nil => rfl
  | cons c t ih =>
      cases t with
      | nil => rfl
      | cons c2 t2 =>
          simp only [pipeRewrite, List.getLastD_cons]
          rw [ih]
          simp only [List.getLastD_cons]

/-- `getLastD` over a map, when the default is also mapped. -/
theorem map_getLastD_aux (f : Cmd → Cmd) (l : List Cmd) (d : Cmd) :
    (l.map f).getLastD (f d) = f (l.getLastD d) := by
  induction l generalizing d with
  | nil => rfl
  | cons c t ih =>
      simp only [List.map_cons, List.getLastD_cons]
      exact ih c

/-- `getLastD` over a map of a nonempty list. -/
theorem map_getLastD (f : Cmd → Cmd) (l : List Cmd) (d : Cmd) (h : l ≠ []) :
    (l.map f).getLastD d = f (l.getLastD d) := by
  cases l with
  | nil => exact absurd rfl h
  | cons c t =>
      rw [List.map_cons, List.getLastD_cons, List.getLastD_cons]
      exact map_getLastD_aux f t c

/-- In-range indexing agrees with `getD`. -/
theorem getD_of_lt (l : List Cmd) (i : Nat) (hi : i < l.length) :
    l[i]? = some (l.getD i defCmd) := by
  rw [List.getD_eq_getElem?_getD, List.getElem?_eq_getElem hi]
  rfl

/-- Indexing into the stage list of a freshly constructed pipeline. -/
theorem pipeInit_cmds_getElem? (environ : String → Option String)
    (cmds : List Cmd) (e : List (String × String)) (i : Nat) :
    (Pipe.init environ cmds e).cmds[i]?
      = if i + 1 < cmds.length then
          (cmds[i]?).map (fun c => pipeStageWire (pipeMergeStage e c))
        else (cmds[i]?).map (pipeMergeStage e) := by
  show (pipeRewrite (cmds.map (pipeMergeStage e)))[i]? = _
  rw [pipeRewrite_getElem?]
  simp only [List.length_map, List.getElem?_map]
  by_cases hc : i + 1 < cmds.length
  · rw [if_pos hc, if_pos hc]
    cases cmds[i]? <;> rfl
  · rw [if_neg hc, if_neg hc]

/-- The stage list of a freshly constructed pipeline has as many
stages as were given. -/
theorem pipeInit_cmds_length (environ : String → Option String)
    (cmds : List Cmd) (e : List (String × String)) :
    (Pipe.init environ cmds e).cmds.length = cmds.length := by
  show (pipeRewrite (cmds.map (pipeMergeStage e))).length = cmds.length
  rw [pipeRewrite_length, List.length_map]

/-- C3: at pipeline construction, every stage except the last whose
output binding is Inherit is rewritten to `Pipe` (a non-Inherit output
of a non-final stage is untouched, as is the final stage's output);
every stage's input and error bindings are left as configured; and the
boundary bindings are exactly stage 1's input, the last stage's output
and the last stage's error. -/
theorem pipe_init_wiring (environ : String → Option String) (cmds : List Cmd)
    (e : List (String × String)) (h : cmds ≠ []) :
    (Pipe.init environ cmds e).cmds.length = cmds.length
    ∧ (∀ i, i + 1 < cmds.length →
        (is_fileno 1 ((cmds.getD i defCmd).fd_objs 1) = true →
          ((Pipe.init environ cmds e).cmds.getD i defCmd).fd_objs 1 = .num (-1))
        ∧ (is_fileno 1 ((cmds.getD i defCmd).fd_objs 1) = false →
          ((Pipe.init environ cmds e).cmds.getD i defCmd).fd_objs 1
            = (cmds.getD i defCmd).fd_objs 1))
    ∧ (∀ i, i < cmds.length →
        ((Pipe.init environ cmds e).cmds.getD i defCmd).fd_objs 2
            = (cmds.getD i defCmd).fd_objs 2
        ∧ ((Pipe.init environ cmds e).cmds.getD i defCmd).fd_objs 0
            = (cmds.getD i defCmd).fd_objs 0)
    ∧ ((Pipe.init environ cmds e).cmds.getD (cmds.length - 1) defCmd).fd_objs 1
        = (cmds.getD (cmds.length - 1) defCmd).fd_objs 1
    ∧ (Pipe.init environ cmds e).fd_objs 0 = (cmds.headD defCmd).fd_objs 0
    ∧ (Pipe.init environ cmds e).fd_objs 1 = (cmds.getLastD defCmd).fd_objs 1
    ∧ (Pipe.init environ cmds e).fd_objs 2 = (cmds.getLastD defCmd).fd_objs 2 := by
  have hlast : (pipeRewrite (cmds.map (pipeMergeStage e))).getLastD defCmd
      = pipeMergeStage e (cmds.getLastD defCmd) := by
    rw [pipeRewrite_getLastD, map_getLastD _ _ _ h]
  refine ⟨pipeInit_cmds_length environ cmds e, ?_, ?_, ?_, ?_, ?_, ?_⟩
  · intro i hi
    have hgd : (Pipe.init environ cmds e).cmds.getD i defCmd
        = pipeStageWire (pipeMergeStage e (cmds.getD i defCmd)) := by
      rw [List.getD_eq_getElem?_getD, pipeInit_cmds_getElem?, if_pos hi,
        getD_of_lt cmds i (by omega)]
      rfl
    have hmf : (pipeMergeStage e (cmds.getD i defCmd)).fd_objs 1
        = (cmds.getD i defCmd).fd_objs 1 := rfl
    rw [hgd, pipeStageWire_fd1, hmf]
    refine ⟨fun hin => by rw [if_pos hin], fun hin => ?_⟩
    have hne : ¬ (is_fileno 1 ((cmds.getD i defCmd).fd_objs 1) = true) := by
      rw [hin]
      simp
    rw [if_neg hne]
  · intro i hi
    by_cases hfin : i + 1 < cmds.length
    · have hgd : (Pipe.init environ cmds e).cmds.getD i defCmd
          = pipeStageWire (pipeMergeStage e (cmds.getD i defCmd)) := by
        rw [List.getD_eq_getElem?_getD, pipeInit_cmds_getElem?, if_pos hfin,
          getD_of_lt cmds i hi]
        rfl
      rw [hgd]
      exact ⟨by rw [pipeStageWire_fd_ne _ 2 (by decide)]; rfl,
             by rw [pipeStageWire_fd_ne _ 0 (by decide)]; rfl⟩
    · have hgd : (Pipe.init environ cmds e).cmds.getD i defCmd
          = pipeMergeStage e (cmds.getD i defCmd) := by
        rw [List.getD_eq_getElem?_getD, pipeInit_cmds_getElem?, if_neg hfin,
          getD_of_lt cmds i hi]
        rfl
      rw [hgd]
      exact ⟨rfl, rfl⟩
  · have hlt : cmds.length - 1 < cmds.length := by
      cases cmds
      · exact absurd rfl h
      · simp
    have hnf : ¬ (cmds.length - 1 + 1 < cmds.length) := by omega
    have hgd : (Pipe.init environ cmds e).cmds.getD (cmds.length - 1) defCmd
        = pipeMergeStage e (cmds.getD (cmds.length - 1) defCmd) := by
      rw [List.getD_eq_getElem?_getD, pipeInit_cmds_getElem?, if_neg hnf,
        getD_of_lt cmds _ hlt]
      rfl
    rw [hgd]
    rfl
  · show ((pipeRewrite (cmds.map (pipeMergeStage e))).headD defCmd).fd_objs 0 = _
    cases cmds with
    | nil => exact absurd rfl h
    | cons c t =>
        cases t with
        | nil => rfl
        | cons c2 t2 =>
            show (pipeStageWire (pipeMergeStage e c)).fd_objs 0 = c.fd_objs 0
            rw [pipeStageWire_fd_ne _ 0 (by decide)]
            rfl
  · show ((pipeRewrite (cmds.map (pipeMergeStage e))).getLastD defCmd).fd_objs 1 = _
    rw [hlast]
    rfl
  · show ((pipeRewrite (cmds.map (pipeMergeStage e))).getLastD defCmd).fd_objs 2 = _
    rw [hlast]
    rfl

/-- Witness for C3 at a two-stage pipeline: the first stage's inherited
stdout became `PIPE`, and the boundary output is the second stage's
(file-redirected) output. -/
theorem pipe_init_wiring_witness :
    ((Pipe.init envNil [sampleCmd, redirCmd] []).cmds.getD 0 defCmd).fd_objs 1
        = .num (-1)
    ∧ (Pipe.init envNil [sampleCmd, redirCmd] []).fd_objs 1
        = .file 5 (some "/tmp/out") := by
  have h := pipe_init_wiring envNil [sampleCmd, redirCmd] [] (by simp)
  refine ⟨(h.2.1 0 (by simp)).1 (by decide), ?_⟩
  rw [h.2.2.2.2.2.1]
  decide

/-- C6: extra environment variables handed to the Pipeline constructor
are merged into every stage's environment at construction time — each
constructed stage's environment is exactly the merge of its original
environment with `e`, so every stage sees every binding of `e`
identically; the pipeline's own environment is the ambient environment
merged with `e`, independent of any later change to a stage. -/
theorem pipe_env_merge (environ : String → Option String) (cmds : List Cmd)
    (e : List (String × String)) :
    (∀ i, i < cmds.length →
      ((Pipe.init environ cmds e).cmds.getD i defCmd).env
          = envUpdate ((cmds.getD i defCmd).env) e
      ∧ ∀ k v, lookupA e k = some v →
          ((Pipe.init environ cmds e).cmds.getD i defCmd).env k = some v)
    ∧ (Pipe.init environ cmds e).env = envUpdate environ e := by
  refine ⟨fun i hi => ?_, rfl⟩
  have henv : ((Pipe.init environ cmds e).cmds.getD i defCmd).env
      = envUpdate ((cmds.getD i defCmd).env) e := by
    rw [List.getD_eq_getElem?_getD, pipeInit_cmds_getElem?]
    by_cases hfin : i + 1 < cmds.length
    · rw [if_pos hfin, getD_of_lt cmds i hi]
      show (pipeStageWire (pipeMergeStage e (cmds.getD i defCmd))).env = _
      rw [pipeStageWire_env]
      rfl
    · rw [if_neg hfin, getD_of_lt cmds i hi]
      rfl
  refine ⟨henv, fun k v hkv => ?_⟩
  rw [henv]
  simp [envUpdate, hkv]

/-- Evaluation of the spawn capability in the capture configuration:
stdout bound to the temporary file `f`, stderr bound to anything that
respects the freshness discipline and is not the stderr→stdout
cross-link.  The child's stdout bytes land in `f` at the shared
offset; the handle keeps no stdout pipe end, any pipe ends it does
keep are at filenos other than `f`, and its status cell is empty. -/
theorem popenRun_capture1 (b0 b2 : FdObj) (beh : ChildBeh) (f : Nat)
    (store : Store) (h2 : objBelow b2 f = true) (h3 : b2 ≠ .num (-2)) :
    ((popenRun (some b0) (some (.file f none)) (some b2) beh (f + 1) store).2.2) f
        = { content := (store f).content ++ beh.outBytes
          , pos := (store f).pos + beh.outBytes.length
          , closed := (store f).closed }
    ∧ (popenRun (some b0) (some (.file f none)) (some b2) beh (f + 1) store).1.fd_objs 1
        = none
    ∧ ((popenRun (some b0) (some (.file f none)) (some b2) beh (f + 1) store).1.fd_objs 0
          = none
        ∨ ∃ g, (popenRun (some b0) (some (.file f none)) (some b2) beh
                  (f + 1) store).1.fd_objs 0 = some (.file g none) ∧ g ≠ f)
    ∧ ((popenRun (some b0) (some (.file f none)) (some b2) beh (f + 1) store).1.fd_objs 2
          = none
        ∨ ∃ g, (popenRun (some b0) (some (.file f none)) (some b2) beh
                  (f + 1) store).1.fd_objs 2 = some (.file g none) ∧ g ≠ f)
    ∧ (popenRun (some b0) (some (.file f none)) (some b2) beh (f + 1) store).1.exitCode
        = beh.exitCode
    ∧ (popenRun (some b0) (some (.file f none)) (some b2) beh (f + 1) store).1.returncode
        = none := by
  have hsout : (some (FdObj.file f none) = some (FdObj.num (-1))) = False := by
    simp
  by_cases hb0 : b0 = .num (-1)
  · subst hb0
    rcases b2 with m2 | ⟨g2, nm2⟩
    · by_cases hm2 : m2 = -1
      · subst hm2
        refine ⟨?_, rfl, ?_, ?_, rfl, rfl⟩
        · simp [popenRun, pipeAlloc, sinkOf, writeStore, initFile,
            (show f ≠ f + 1 + 1 from by omega), (show f + 1 + 1 ≠ f from by omega)]
        · right
          exact ⟨f + 1, rfl, by omega⟩
        · right
          refine ⟨f + 2, ?_, by omega⟩
          simp [popenRun, pipeAlloc]
      · have hm2' : m2 < (f : Int) := by simpa [objBelow] using h2
        refine ⟨?_, rfl, ?_, ?_, rfl, rfl⟩
        · simp only [popenRun, pipeAlloc, sinkOf, writeStore, initFile]
          simp [hm2, hsout, h3]
          by_cases hm0 : (0 : Int) ≤ m2
          · have hfm : f ≠ m2.toNat := by omega
            simp [hm0, hfm, initFile]
          · simp [hm0, initFile]
        · right
          exact ⟨f + 1, rfl, by omega⟩
        · left
          simp [popenRun, pipeAlloc, hm2]
    · have hg2 : g2 < f := by simpa [objBelow] using h2
      refine ⟨?_, rfl, ?_, ?_, rfl, rfl⟩
      · simp only [popenRun, pipeAlloc, sinkOf, writeStore, initFile]
        simp [hsout]
        have hfg : f ≠ g2 := by omega
        simp [hfg, initFile]
      · right
        exact ⟨f + 1, rfl, by omega⟩
      · left
        simp [popenRun, pipeAlloc]
  · rcases b2 with m2 | ⟨g2, nm2⟩
    · by_cases hm2 : m2 = -1
      · subst hm2
        refine ⟨?_, rfl, ?_, ?_, rfl, rfl⟩
        · simp [popenRun, pipeAlloc, sinkOf, writeStore, initFile, hb0,
            (show f ≠ f + 1 from by omega), (show f + 1 ≠ f from by omega)]
        · left
          simp [popenRun, pipeAlloc, hb0]
        · right
          refine ⟨f + 1, ?_, by omega⟩
          simp [popenRun, pipeAlloc, hb0]
      · have hm2' : m2 < (f : Int) := by simpa [objBelow] using h2
        refine ⟨?_, rfl, ?_, ?_, rfl, rfl⟩
        · simp only [popenRun, pipeAlloc, sinkOf, writeStore, initFile]
          simp [hm2, hsout, h3, hb0]
          by_cases hm0 : (0 : Int) ≤ m2
          · have hfm : f ≠ m2.toNat := by omega
            simp [hm0, hfm, initFile]
          · simp [hm0, initFile]
        · left
          simp [popenRun, pipeAlloc, hb0]
        · left
          simp [popenRun, pipeAlloc, hm2]
    · have hg2 : g2 < f := by simpa [objBelow] using h2
      refine ⟨?_, rfl, ?_, ?_, rfl, rfl⟩
      · simp only [popenRun, pipeAlloc, sinkOf, writeStore, initFile]
        simp [hsout, hb0]
        have hfg : f ≠ g2 := by omega
        simp [hfg, initFile]
      · left
        simp [popenRun, pipeAlloc, hb0]
      · left
        simp [popenRun, pipeAlloc]

/-- Reading a closed-elsewhere store entry. -/
theorem closeFile_at_ne (store : Store) (g f : Nat) (h : f ≠ g) :
    closeFile store g f = store f := by
  simp [closeFile, h]

/-- C2: on a Command whose output binding is Inherit (its other
bindings respecting the fresh-fileno discipline, and its error binding
not the stderr→stdout cross-link, so that only the child's stdout
bytes reach the capture buffer), `capture({1})` rebinds stream 1 to a
fresh temporary buffer, runs the child — which writes exactly `B` to
its standard output and exits 0 — rewinds the buffer to offset zero
and returns a record whose stdout buffer holds exactly `B` and whose
exit status is 0; `capture()` with no arguments is identical to
`capture({1})`. -/
theorem capture_stdout_roundtrip (c : Cmd) (B E : String) (fresh : Nat)
    (store : Store)
    (h1 : is_fileno 1 (c.fd_objs 1) = true)
    (h2 : objBelow (c.fd_objs 2) fresh = true)
    (h3 : c.fd_objs 2 ≠ .num (-2)) :
    (Cmd.capture c ⟨B, E, 0⟩ [1] fresh store).1
        = .ok ⟨.file fresh none, c.fd_objs 2, some 0⟩
    ∧ (Cmd.capture c ⟨B, E, 0⟩ [1] fresh store).2.1.fd_objs 1 = .file fresh none
    ∧ ((Cmd.capture c ⟨B, E, 0⟩ [1] fresh store).2.2.2 fresh).content = B
    ∧ ((Cmd.capture c ⟨B, E, 0⟩ [1] fresh store).2.2.2 fresh).pos = 0
    ∧ Cmd.capture c ⟨B, E, 0⟩ [] fresh store
        = Cmd.capture c ⟨B, E, 0⟩ [1] fresh store := by
  have hloop : captureLoop [1] c.fd_objs fresh store
      = (.ok (), updFd c.fd_objs 1 (.file fresh none), fresh + 1,
         initFile store fresh) := by
    simp [captureLoop, _verify_capture_args, _check_redirect_target, h1]
  have hfdo0 : updFd c.fd_objs 1 (.file fresh none) 0 = c.fd_objs 0 := by
    simp [updFd]
  have hfdo1 : updFd c.fd_objs 1 (.file fresh none) 1 = .file fresh none := by
    simp [updFd]
  have hfdo2 : updFd c.fd_objs 1 (.file fresh none) 2 = c.fd_objs 2 := by
    simp [updFd]
  obtain ⟨hA, hB1, hB0, hB2, hE, hR⟩ := popenRun_capture1 (c.fd_objs 0)
    (c.fd_objs 2) ⟨B, E, 0⟩ fresh (initFile store fresh) h2 h3
  have hfin : (Cmd.capture c ⟨B, E, 0⟩ [1] fresh store).2.2.2 fresh
      = ⟨B, 0, false⟩ := by
    unfold Cmd.capture
    simp only [List.cons_ne_nil, if_false, ite_false, hloop]
    simp only [hfdo0, hfdo1, hfdo2]
    rcases hB0 with hB0 | ⟨g0, hB0, hg0⟩
    · rcases hB2 with hB2 | ⟨g2, hB2, hg2⟩
      · simp [hB0, hB2, _cleanup_capture_dict, seekZero, hfdo1, hA, initFile]
      · have hg2' : fresh ≠ g2 := Ne.symm hg2
        by_cases hgg : (g2 : Int) = 2
        · simp [hB0, hB2, _cleanup_capture_dict, seekZero, hfdo1, hgg, hA, initFile]
        · simp [hB0, hB2, _cleanup_capture_dict, seekZero, hfdo1, hgg,
            closeFile_at_ne, hg2', hA, initFile]
    · have hg0' : fresh ≠ g0 := Ne.symm hg0
      rcases hB2 with hB2 | ⟨g2, hB2, hg2⟩
      · simp [hB0, hB2, _cleanup_capture_dict, seekZero, hfdo1,
          closeFile_at_ne, hg0', hA, initFile]
      · have hg2' : fresh ≠ g2 := Ne.symm hg2
        by_cases hgg : (g2 : Int) = 2
        · simp [hB0, hB2, _cleanup_capture_dict, seekZero, hfdo1, hgg,
            closeFile_at_ne, hg0', hA, initFile]
        · simp [hB0, hB2, _cleanup_capture_dict, seekZero, hfdo1, hgg,
            closeFile_at_ne, hg0', hg2', hA, initFile]
  refine ⟨?_, ?_, ?_, ?_, rfl⟩
  · unfold Cmd.capture
    simp only [List.cons_ne_nil, if_false, ite_false, hloop]
    simp only [hfdo0, hfdo1, hfdo2, hE]
  · unfold Cmd.capture
    simp only [List.cons_ne_nil, if_false, ite_false, hloop]
    simp only [hfdo1]
  · rw [hfin]
  · rw [hfin]

/-- Witness for C2: the sample command printing `foo` to its inherited
stdout, captured into fileno 3. -/
theorem capture_stdout_roundtrip_witness :
    (Cmd.capture sampleCmd ⟨"foo", "", 0⟩ [1] 3 store0).1
        = .ok ⟨.file 3 none, .num 2, some 0⟩
    ∧ (Cmd.capture sampleCmd ⟨"foo", "", 0⟩ [1] 3 store0).2.1.fd_objs 1
        = .file 3 none
    ∧ ((Cmd.capture sampleCmd ⟨"foo", "", 0⟩ [1] 3 store0).2.2.2 3).content = "foo"
    ∧ ((Cmd.capture sampleCmd ⟨"foo", "", 0⟩ [1] 3 store0).2.2.2 3).pos = 0
    ∧ Cmd.capture sampleCmd ⟨"foo", "", 0⟩ [] 3 store0
        = Cmd.capture sampleCmd ⟨"foo", "", 0⟩ [1] 3 store0 :=
  capture_stdout_roundtrip sampleCmd "foo" "" 3 store0 rfl rfl (by decide)

end Extproc
